import Mathlib

/-!
Verification of the grading core of a student-assessment portal
(`faculty_marks_entry.py`): question-bank indexing (`df_mcq_index`,
`per_question_max_for_short`), answer matching (`mcq_match`), automatic
scoring (`compute_auto_score`) and score persistence (`save_marks`, the
recalculate-autoscore-only handler).

Python strings are modelled by `String`, Python floats by `ℚ`, Python ints
by `ℤ`, pandas cells that may be absent/NaN, numeric, or non-numeric by
`Cell`, Firestore documents by field maps `String → Option Value`, and
`set(..., merge=True)` by a field-level merge write.
-/

/-- Python's `str.strip` whitespace set (ASCII part). -/
def pyIsSpace (c : Char) : Bool :=
  c == ' ' || c == '\t' || c == '\n' || c == '\r' || c == '\x0b' || c == '\x0c'

/-- Strip leading and trailing whitespace from a character list (Python `str.strip`). -/
def pyStripList (l : List Char) : List Char :=
  ((l.dropWhile pyIsSpace).reverse.dropWhile pyIsSpace).reverse

/-- Python `str.strip`. -/
def pyStrip (s : String) : String := String.mk (pyStripList s.data)

/-- Python `str.lower` (ASCII case fold). -/
def pyLower (s : String) : String := String.mk (s.data.map Char.toLower)

/-- Source `normalize_answer`: `(text or "").strip().lower()`. -/
def normalize_answer (s : String) : String := pyLower (pyStrip s)

/-- One pandas cell of a weight/cap alias column: the column is absent or the
value is NaN (`pd.notna` fails), or the value parses as a float, or it is
present but non-numeric (`float(...)` raises). -/
inductive Cell where
  | missing : Cell
  | num : ℚ → Cell
  | nonNumeric : Cell
deriving DecidableEq, BEq

/-- One question-bank CSV row, with the raw string columns and the four
weight/cap alias cells (`Marks`, `Max`, `MaxMarks`, `Weight`); option-column
cells are `none` when `pd.notna` fails. -/
structure Row where
  questionID : String
  qtype : String
  marksCell : Cell
  maxCell : Cell
  maxMarksCell : Cell
  weightCell : Cell
  optionCells : List (Option String)
  correct : String
deriving DecidableEq

/-- The alias-resolution loop of the source: scan the candidate cells in
order; the first cell that is present and not NaN ends the scan (`break`) —
yielding its value if it parses as a number and nothing otherwise. -/
def resolve_weight_cells : List Cell → Option ℚ
  | [] => none
  | Cell.missing :: rest => resolve_weight_cells rest
  | Cell.num q :: _ => some q
  | Cell.nonNumeric :: _ => none

/-- Alias cells in the order `df_mcq_index` scans them: Marks, Max, MaxMarks, Weight. -/
def df_weight_cells (r : Row) : List Cell :=
  [r.marksCell, r.maxCell, r.maxMarksCell, r.weightCell]

/-- Alias cells in the order `per_question_max_for_short` scans them: Max, Marks, MaxMarks, Weight. -/
def short_cap_cells (r : Row) : List Cell :=
  [r.maxCell, r.marksCell, r.maxMarksCell, r.weightCell]

/-- The per-question record built by `df_mcq_index`: normalized type, resolved
weight, stripped correct-answer specifier, normalized option texts. -/
structure QMeta where
  qtype : String
  marks : ℚ
  correct : String
  options : List String
deriving DecidableEq

/-- Build the `QMeta` for one row, as in the body of `df_mcq_index`:
`qtype = str(row["Type"]).strip().lower()`, weight from the alias scan with
default `1.0 if qtype == "mcq" else 1.0`, `correct = str(row["Correct"]).strip()`,
options are the notna option cells `str(val).strip().lower()`. -/
def rowQMeta (r : Row) : QMeta :=
  { qtype := pyLower (pyStrip r.qtype)
    marks := match resolve_weight_cells (df_weight_cells r) with
      | some q => q
      | none => if pyLower (pyStrip r.qtype) = "mcq" then (1 : ℚ) else 1
    correct := pyStrip r.correct
    options := (r.optionCells.filterMap id).map normalize_answer }

/-- Source `df_mcq_index`: QuestionID → QMeta; rows whose stripped id is empty
are skipped; later rows overwrite earlier ones with the same id. -/
def df_mcq_index (rows : List Row) : String → Option QMeta :=
  rows.foldl
    (fun out r =>
      let qid := pyStrip r.questionID
      if qid = "" then out
      else fun k => if k = qid then some (rowQMeta r) else out k)
    (fun _ => none)

/-- The `letters = {"a":0, ..., "e":4}` table of `mcq_match`. -/
def letterIdx (s : String) : Option Nat :=
  if s = "a" then some 0
  else if s = "b" then some 1
  else if s = "c" then some 2
  else if s = "d" then some 3
  else if s = "e" then some 4
  else none

/-- The `nums = {"1":0, ..., "5":4}` table of `mcq_match`. -/
def numIdx (s : String) : Option Nat :=
  if s = "1" then some 0
  else if s = "2" then some 1
  else if s = "3" then some 2
  else if s = "4" then some 3
  else if s = "5" then some 4
  else none

/-- Source `mcq_match`: normalize the student answer; empty fails; resolve the
answer to an option index (exact option text, then letter, then digit); if none
apply return the raw normalized-text comparison against the correct specifier;
otherwise resolve the correct specifier (letter, digit, then option lookup) and
compare indices, failing when it does not resolve. -/
def mcq_match (student_answer : String) (qmeta : QMeta) : Bool :=
  let ans := normalize_answer student_answer
  let corr := pyStrip qmeta.correct
  let opts := qmeta.options
  if ans = "" then false
  else
    match (if opts.contains ans then some (opts.indexOf ans)
           else if (letterIdx ans).isSome then letterIdx ans
           else numIdx ans) with
    | none => ans == normalize_answer corr
    | some ans_idx =>
      match (if (letterIdx (normalize_answer corr)).isSome then letterIdx (normalize_answer corr)
             else if (numIdx (normalize_answer corr)).isSome then numIdx (normalize_answer corr)
             else if opts.contains (normalize_answer corr) then
               some (opts.indexOf (normalize_answer corr))
             else none) with
      | none => false
      | some corr_idx => ans_idx == corr_idx

/-- Claim C1, step 2 resolution of the student answer: exact match against the
normalized option list, then single-letter mapping, then single-digit mapping. -/
def resolveStudentIdx (opts : List String) (ans : String) : Option Nat :=
  if opts.contains ans then some (opts.indexOf ans)
  else if (letterIdx ans).isSome then letterIdx ans
  else numIdx ans

/-- Claim C1, step 3 resolution of the correct-answer specifier: the same
letter/digit mapping, else lookup of its normalized form in the option list. -/
def resolveCorrectIdx (opts : List String) (corr_l : String) : Option Nat :=
  if (letterIdx corr_l).isSome then letterIdx corr_l
  else if (numIdx corr_l).isSome then numIdx corr_l
  else if opts.contains corr_l then some (opts.indexOf corr_l)
  else none

/-- The matcher exactly as claim C1 words it: normalize the student answer
(empty fails); resolve it to an index; if no resolution applies, return direct
normalized string equality with the correct-answer specifier; otherwise resolve
the specifier, fail when it has no index, else compare indices. -/
def matches_spec (studentAnswer : String) (record : QMeta) : Bool :=
  let ans := normalize_answer studentAnswer
  if ans = "" then false
  else
    match resolveStudentIdx record.options ans with
    | none => ans == normalize_answer record.correct
    | some i =>
      match resolveCorrectIdx record.options (normalize_answer record.correct) with
      | none => false
      | some j => i == j

/-- One submission response item: raw `Type`, `QuestionID`, `Response` strings. -/
structure Resp where
  rtype : String
  questionID : String
  response : String
deriving DecidableEq

/-- One iteration of the `compute_auto_score` loop: skip non-mcq responses,
skip empty or unknown question ids, then add `marks or 1.0` and record 1 on a
match, else record 0. -/
def autoStep (idx : String → Option QMeta) (acc : ℚ × (String → Option Nat)) (r : Resp) :
    ℚ × (String → Option Nat) :=
  if pyLower r.rtype ≠ "mcq" then acc
  else
    let qid := pyStrip r.questionID
    if qid = "" then acc
    else
      match idx qid with
      | none => acc
      | some m =>
        if mcq_match r.response m then
          (acc.1 + (if m.marks = 0 then 1 else m.marks), fun k => if k = qid then some 1 else acc.2 k)
        else (acc.1, fun k => if k = qid then some 0 else acc.2 k)

/-- Source `compute_auto_score`: fold the responses over `autoStep` starting
from score `0.0` and an empty correctness map. -/
def compute_auto_score (rows : List Row) (responses : List Resp) :
    ℚ × (String → Option Nat) :=
  responses.foldl (autoStep (df_mcq_index rows)) (0, fun _ => none)

/-- Per-response score contribution of the code: on a match the stored weight
is added, except that a stored weight of `0.0` is falsy in Python and
`marks or 1.0` contributes `1.0` instead. -/
def contribScore (idx : String → Option QMeta) (r : Resp) : ℚ :=
  if pyLower r.rtype ≠ "mcq" then 0
  else
    let qid := pyStrip r.questionID
    if qid = "" then 0
    else
      match idx qid with
      | none => 0
      | some m => if mcq_match r.response m then (if m.marks = 0 then 1 else m.marks) else 0

/-- Per-response score contribution exactly as claim C2 words it: on a match
the question's weight is added, unconditionally. -/
def contribScoreClaimed (idx : String → Option QMeta) (r : Resp) : ℚ :=
  if pyLower r.rtype ≠ "mcq" then 0
  else
    let qid := pyStrip r.questionID
    if qid = "" then 0
    else
      match idx qid with
      | none => 0
      | some m => if mcq_match r.response m then m.marks else 0

/-- The automatic score as claim C2 states it: the sum of the weights of the
matched mcq responses whose identifier is in the bank. -/
def autoScoreClaimed (rows : List Row) (responses : List Resp) : ℚ :=
  (responses.map (contribScoreClaimed (df_mcq_index rows))).sum

/-- A response contributes to the automatic score iff it is of type mcq and
its stripped question id is nonempty and present in the bank index. -/
def respContributes (idx : String → Option QMeta) (r : Resp) : Bool :=
  (pyLower r.rtype == "mcq") && (!(pyStrip r.questionID == "")) && (idx (pyStrip r.questionID)).isSome

/-- The correctness entry a contributing response writes for its question. -/
def detailEntry (idx : String → Option QMeta) (r : Resp) : Option Nat :=
  match idx (pyStrip r.questionID) with
  | some m => some (if mcq_match r.response m then 1 else 0)
  | none => none

/-- The final correctness map: for each question id, the entry written by the
last contributing response with that id, if any. -/
def detailFun (idx : String → Option QMeta) (responses : List Resp) (q : String) : Option Nat :=
  match responses.reverse.find? (fun r => respContributes idx r && (pyStrip r.questionID == q)) with
  | some r => detailEntry idx r
  | none => none

/-- The question ids of the contributing responses, in order. -/
def contribQids (idx : String → Option QMeta) (responses : List Resp) : List String :=
  (responses.filter (respContributes idx)).map (fun r => pyStrip r.questionID)

/-- Python `int(...)` on a float: truncation toward zero. -/
def truncToInt (q : ℚ) : ℤ := if 0 ≤ q then ⌊q⌋ else ⌈q⌉

/-- One iteration of the `per_question_max_for_short` loop: skip non-short
rows and empty ids, else record the alias-resolved cap (order Max, Marks,
MaxMarks, Weight), truncated to an integer, default 1, floored at 1. -/
def shortCapStep (out : String → Option ℤ) (r : Row) : String → Option ℤ :=
  if pyLower (pyStrip r.qtype) ≠ "short" then out
  else
    let qid := pyStrip r.questionID
    if qid = "" then out
    else
      let mx : ℤ := match resolve_weight_cells (short_cap_cells r) with
        | some q => truncToInt q
        | none => 1
      fun k => if k = qid then some (max 1 mx) else out k

/-- Source `per_question_max_for_short`: QuestionID → integer cap for each
short-type row. -/
def per_question_max_for_short (rows : List Row) : String → Option ℤ :=
  rows.foldl shortCapStep (fun _ => none)

/-- The cap resolution exactly as claim C5 words it: resolved the same way as
the mcq weight — by the same prioritized alias list that `df_mcq_index` uses
(Marks, Max, MaxMarks, Weight) — default 1, floored at 1. -/
def capClaimed (rows : List Row) : String → Option ℤ :=
  rows.foldl
    (fun out r =>
      if pyLower (pyStrip r.qtype) ≠ "short" then out
      else
        let qid := pyStrip r.questionID
        if qid = "" then out
        else
          let mx : ℤ := match resolve_weight_cells (df_weight_cells r) with
            | some q => truncToInt q
            | none => 1
          fun k => if k = qid then some (max 1 mx) else out k)
    (fun _ => none)

/-- The cap resolution as amended for claim C5: the alias list is scanned in
the order Max, Marks, MaxMarks, Weight (Max first, unlike the weight
resolution), the value truncated to an integer, default 1, floored at 1. -/
def capAmended (rows : List Row) : String → Option ℤ :=
  rows.foldl
    (fun out r =>
      if pyLower (pyStrip r.qtype) ≠ "short" then out
      else
        let qid := pyStrip r.questionID
        if qid = "" then out
        else
          fun k =>
            if k = qid then
              some (max 1 (match resolve_weight_cells (short_cap_cells r) with
                | some q => truncToInt q
                | none => 1))
            else out k)
    (fun _ => none)

/-- A Firestore field value of the submission documents this core writes: a
finite number, the float NaN (which the recompute-only handler can persist),
a boolean, a string, or the manual-marks map. -/
inductive Value where
  | num : ℚ → Value
  | nanNum : Value
  | boolV : Bool → Value
  | str : String → Value
  | marksMap : List (String × Option Int) → Value
deriving DecidableEq

/-- A submission document: a field map. -/
def Doc := String → Option Value

/-- Firestore `set(fields, merge=True)` at the field level: the listed fields
are overwritten, every other field keeps its prior value. -/
def mergeWrite (doc : Doc) (upd : List (String × Value)) : Doc :=
  fun k =>
    match upd.lookup k with
    | some v => some v
    | none => doc k

/-- Python `int(v or 0)` for an optional integer mark: `None` and `0` are
falsy and yield 0; every other value passes through unchanged. -/
def pyIntOr0 : Option Int → Int
  | none => 0
  | some v => if v = 0 then 0 else v

/-- Source `save_marks`: sum the manual marks with `int(v or 0)`, compute the
total, merge-write the six fields, and return `(total_short, total)`. -/
def save_marks (now : String) (doc : Doc) (short_marks : List (String × Option Int))
    (auto_score : ℚ) : Doc × ℤ × ℚ :=
  let total_short : ℤ := (short_marks.map (fun p => pyIntOr0 p.2)).sum
  let total : ℚ := auto_score + (total_short : ℚ)
  (mergeWrite doc
    [("ShortMarks", Value.marksMap short_marks),
     ("ShortMarksTotal", Value.num (total_short : ℚ)),
     ("AutoScore", Value.num auto_score),
     ("TotalScore", Value.num total),
     ("Evaluated", Value.boolV true),
     ("EvaluatedAt", Value.str now)],
   total_short, total)

/-- A Python float as it appears in a pandas cell: a rational, or the float
NaN that pandas stores for a field missing from a document. -/
inductive PFloat where
  | nan : PFloat
  | num : ℚ → PFloat
deriving DecidableEq

/-- Python float addition on this model: NaN absorbs. -/
def PFloat.add : PFloat → PFloat → PFloat
  | PFloat.num a, PFloat.num b => PFloat.num (a + b)
  | _, _ => PFloat.nan

/-- The Firestore value written for a Python float. -/
def valueOfPFloat : PFloat → Value
  | PFloat.nan => Value.nanNum
  | PFloat.num q => Value.num q

/-- What `row.get("ShortMarksTotal")` yields on this submission's pandas row:
the persisted number when the record has the (numeric, per the document shape)
field, and NaN when it does not — `fetch_submissions` builds a DataFrame in
which a document's missing field becomes NaN. The column itself exists in
every state that reaches the handler: were no document to carry the field,
`df["ShortMarksTotal"]` would raise KeyError at the quick-flags step before
the grading form renders. -/
def rowShortMarksTotal (doc : Doc) : PFloat :=
  match doc "ShortMarksTotal" with
  | some (Value.num q) => PFloat.num q
  | _ => PFloat.nan

/-- Python `float(row.get("ShortMarksTotal") or 0)`: 0 and 0.0 are falsy and
give 0.0, but NaN is truthy and passes through unchanged. -/
def pyOrZeroFloat : PFloat → PFloat
  | PFloat.nan => PFloat.nan
  | PFloat.num q => if q = 0 then PFloat.num 0 else PFloat.num q

/-- The `🔄 Recalculate AutoScore only` button handler: merge-write only
`AutoScore` and `TotalScore = float(auto_score) + float(row.get("ShortMarksTotal") or 0)`,
reading the previous short total from the pandas row of this submission. -/
def recalculate_auto_score_only (doc : Doc) (auto_score : ℚ) : Doc :=
  mergeWrite doc
    [("AutoScore", Value.num auto_score),
     ("TotalScore",
       valueOfPFloat (PFloat.add (PFloat.num auto_score)
         (pyOrZeroFloat (rowShortMarksTotal doc))))]

/-- A nonempty `dropWhile` result starts with an element failing the predicate. -/
theorem head_dropWhile_false {α : Type} (p : α → Bool) :
    ∀ (l : List α) (a : α), (l.dropWhile p).head? = some a → p a = false := by
  intro l
  induction l with
  | nil => intro a h; simp [List.dropWhile] at h
  | cons b t ih =>
    intro a h
    rw [List.dropWhile_cons] at h
    by_cases hb : p b = true
    · rw [if_pos hb] at h
      exact ih a h
    · rw [if_neg hb] at h
      simp only [List.head?_cons, Option.some.injEq] at h
      subst h
      cases hpb : p b with
      | true => exact absurd hpb hb
      | false => rfl

/-- Dropping a prefix twice is the same as dropping it once. -/
theorem dropWhile_idem {α : Type} (p : α → Bool) (l : List α) :
    (l.dropWhile p).dropWhile p = l.dropWhile p := by
  cases h : l.dropWhile p with
  | nil => rfl
  | cons a t =>
    have ha : p a = false := head_dropWhile_false p l a (by rw [h]; rfl)
    rw [List.dropWhile_cons, if_neg (by simp [ha])]

/-- When `dropWhile` leaves something, it leaves the last element in place. -/
theorem getLast?_dropWhile_of_ne_nil {α : Type} (p : α → Bool) :
    ∀ (l : List α), l.dropWhile p ≠ [] → (l.dropWhile p).getLast? = l.getLast? := by
  intro l
  induction l with
  | nil => intro h; exact absurd rfl h
  | cons b t ih =>
    intro h
    rw [List.dropWhile_cons] at h ⊢
    by_cases hb : p b = true
    · rw [if_pos hb] at h ⊢
      have ht : t ≠ [] := by
        intro he
        subst he
        simp [List.dropWhile] at h
      rw [ih h]
      cases t with
      | nil => exact absurd rfl ht
      | cons c u => rw [List.getLast?_cons_cons]
    · rw [if_neg hb]

/-- A stripped character list has no leading whitespace left. -/
theorem pyStrip_no_leading (m : List Char) :
    (pyStripList m).dropWhile pyIsSpace = pyStripList m := by
  unfold pyStripList
  cases er : ((m.dropWhile pyIsSpace).reverse.dropWhile pyIsSpace).reverse with
  | nil => rfl
  | cons a u =>
    have hh : ((m.dropWhile pyIsSpace).reverse.dropWhile pyIsSpace).reverse.head? = some a := by
      rw [er]; rfl
    have h2 : ((m.dropWhile pyIsSpace).reverse.dropWhile pyIsSpace).getLast? = some a := by
      rw [← List.head?_reverse]; exact hh
    have hene : (m.dropWhile pyIsSpace).reverse.dropWhile pyIsSpace ≠ [] := by
      intro h0
      rw [h0] at h2
      simp at h2
    have h3 : (m.dropWhile pyIsSpace).reverse.getLast? = some a := by
      rw [← getLast?_dropWhile_of_ne_nil pyIsSpace _ hene]; exact h2
    have h4 : (m.dropWhile pyIsSpace).head? = some a := by
      rw [← List.getLast?_reverse]; exact h3
    have hpa : pyIsSpace a = false := head_dropWhile_false pyIsSpace m a h4
    rw [List.dropWhile_cons, if_neg (by simp [hpa])]

/-- Stripping is idempotent on character lists. -/
theorem pyStripList_idem (l : List Char) : pyStripList (pyStripList l) = pyStripList l := by
  have h1 : pyStripList (pyStripList l)
      = (((pyStripList l).dropWhile pyIsSpace).reverse.dropWhile pyIsSpace).reverse := rfl
  rw [h1, pyStrip_no_leading]
  have h2 : (pyStripList l).reverse = (l.dropWhile pyIsSpace).reverse.dropWhile pyIsSpace :=
    List.reverse_reverse _
  rw [h2, dropWhile_idem]
  rfl

/-- Python `strip` is idempotent. -/
theorem pyStrip_idem (s : String) : pyStrip (pyStrip s) = pyStrip s :=
  congrArg String.mk (pyStripList_idem s.data)

/-- C1: for every mcq question record and every student answer, `mcq_match`
computes exactly the algorithm the claim describes: normalize the student
answer (empty fails); resolve it to a zero-based index by exact option match,
then letter mapping, then digit mapping; if none apply return the direct
normalized string equality of student answer and correct-answer specifier with
no index comparison; otherwise resolve the specifier by letter/digit mapping,
else by option-list lookup of its normalized form; fail if it has no index,
else succeed iff the indices are equal. -/
theorem mcq_match_follows_spec_algorithm (studentAnswer : String) (record : QMeta) :
    mcq_match studentAnswer record = matches_spec studentAnswer record := by
  simp only [mcq_match, matches_spec, resolveStudentIdx, resolveCorrectIdx, normalize_answer]
  rw [pyStrip_idem]

/-- One `compute_auto_score` iteration adds exactly the per-response contribution. -/
theorem autoStep_fst (idx : String → Option QMeta) (acc : ℚ × (String → Option Nat)) (r : Resp) :
    (autoStep idx acc r).1 = acc.1 + contribScore idx r := by
  simp only [autoStep, contribScore]
  by_cases h1 : pyLower r.rtype ≠ "mcq"
  · simp [h1]
  · simp only [if_neg h1]
    by_cases h2 : pyStrip r.questionID = ""
    · simp [h2]
    · simp only [if_neg h2]
      cases h3 : idx (pyStrip r.questionID) with
      | none => simp
      | some m =>
        by_cases h4 : mcq_match r.response m
        · simp [h4]
        · simp [h4]

/-- The `respContributes` flag unpacked into its three conditions. -/
theorem respContributes_iff (idx : String → Option QMeta) (r : Resp) :
    respContributes idx r = true ↔
      pyLower r.rtype = "mcq" ∧ pyStrip r.questionID ≠ ""
        ∧ (idx (pyStrip r.questionID)).isSome := by
  simp [respContributes, and_assoc]

/-- One `compute_auto_score` iteration updates the correctness map exactly at
the key of a contributing response. -/
theorem autoStep_snd (idx : String → Option QMeta) (acc : ℚ × (String → Option Nat)) (r : Resp)
    (q : String) :
    (autoStep idx acc r).2 q =
      if respContributes idx r && (pyStrip r.questionID == q) then detailEntry idx r
      else acc.2 q := by
  simp only [autoStep, detailEntry]
  by_cases h1 : pyLower r.rtype ≠ "mcq"
  · have hc : respContributes idx r = false := by
      simp [respContributes]
      intro h
      exact absurd h h1
    simp [h1, hc]
  · simp only [if_neg h1]
    have h1' : pyLower r.rtype = "mcq" := not_not.mp h1
    by_cases h2 : pyStrip r.questionID = ""
    · have hc : respContributes idx r = false := by
        simp [respContributes, h2]
      simp [h2, hc]
    · simp only [if_neg h2]
      cases h3 : idx (pyStrip r.questionID) with
      | none =>
        have hc : respContributes idx r = false := by
          simp [respContributes, h3]
        simp [hc]
      | some m =>
        have hc : respContributes idx r = true := by
          simp [respContributes, h1', h2, h3]
        by_cases h5 : pyStrip r.questionID = q
        · have hq : (pyStrip r.questionID == q) = true := by simp [h5]
          by_cases h4 : mcq_match r.response m
          · simp [h4, hc, hq, h5]
          · simp [h4, hc, hq, h5]
        · have hq : (pyStrip r.questionID == q) = false := by simp [h5]
          by_cases h4 : mcq_match r.response m
          · simp [h4, hc, hq, Ne.symm h5]
          · simp [h4, hc, hq, Ne.symm h5]

/-- Folding `autoStep` accumulates the sum of the per-response contributions. -/
theorem auto_foldl_fst (idx : String → Option QMeta) :
    ∀ (resps : List Resp) (acc : ℚ × (String → Option Nat)),
      (resps.foldl (autoStep idx) acc).1 = acc.1 + (resps.map (contribScore idx)).sum := by
  intro resps
  induction resps with
  | nil => intro acc; simp
  | cons r rest ih =>
    intro acc
    simp only [List.foldl_cons, List.map_cons, List.sum_cons]
    rw [ih, autoStep_fst]
    ring

/-- Folding `autoStep` produces, at each key, the entry of the last
contributing response with that key, else the accumulator's entry. -/
theorem auto_foldl_snd (idx : String → Option QMeta) :
    ∀ (resps : List Resp) (acc : ℚ × (String → Option Nat)) (q : String),
      (resps.foldl (autoStep idx) acc).2 q =
        match resps.reverse.find?
            (fun r => respContributes idx r && (pyStrip r.questionID == q)) with
        | some r => detailEntry idx r
        | none => acc.2 q := by
  intro resps
  induction resps with
  | nil => intro acc q; rfl
  | cons r rest ih =>
    intro acc q
    simp only [List.foldl_cons, List.reverse_cons]
    rw [ih]
    rw [List.find?_append]
    cases hf : rest.reverse.find?
        (fun r => respContributes idx r && (pyStrip r.questionID == q)) with
    | some r' => rfl
    | none =>
      rw [autoStep_snd]
      simp only [Option.none_or, List.find?_singleton]
      by_cases hp : (respContributes idx r && (pyStrip r.questionID == q)) = true
      · rw [if_pos hp, if_pos hp]
      · rw [if_neg hp, if_neg hp]

/-- The automatic score as claim C2 states it is wrong on a matched question
whose configured weight is 0: the code adds `float(marks or 1.0)`, which is
1.0, not the weight 0. -/
theorem compute_auto_score_zero_weight_counterexample :
    (compute_auto_score
        [⟨"q1", "mcq", Cell.num 0, Cell.missing, Cell.missing, Cell.missing,
          [some "x", some "y"], "a"⟩]
        [⟨"mcq", "q1", "x"⟩]).1
      ≠ autoScoreClaimed
        [⟨"q1", "mcq", Cell.num 0, Cell.missing, Cell.missing, Cell.missing,
          [some "x", some "y"], "a"⟩]
        [⟨"mcq", "q1", "x"⟩] := by
  have hm : mcq_match "x"
      { qtype := pyLower (pyStrip "mcq"), marks := 0, correct := pyStrip "a",
        options := List.map normalize_answer (List.filterMap id [some "x", some "y"]) } = true := by
    decide
  simp +decide [compute_auto_score, autoScoreClaimed, df_mcq_index, autoStep,
    contribScoreClaimed, rowQMeta, resolve_weight_cells, df_weight_cells, hm]

/-- C2 (amended): `compute_auto_score` sums, over the responses, exactly the
weight of each matched mcq response whose identifier is in the bank — except
that a stored weight of 0 contributes 1.0 (Python `marks or 1.0`) — skipping
non-mcq responses and empty/unknown identifiers without penalty or entry, and
its correctness map holds, for each question id, 1 or 0 according to whether
the last contributing response with that id matched. -/
theorem compute_auto_score_characterization (rows : List Row) (responses : List Resp) :
    (compute_auto_score rows responses).1
        = (responses.map (contribScore (df_mcq_index rows))).sum
      ∧ ∀ q, (compute_auto_score rows responses).2 q
        = detailFun (df_mcq_index rows) responses q := by
  constructor
  · unfold compute_auto_score
    rw [auto_foldl_fst]
    simp
  · intro q
    unfold compute_auto_score detailFun
    rw [auto_foldl_snd]

/-- If at most one element (up to equality) satisfies the predicate, `find?`
is invariant under permutation. -/
theorem find?_eq_of_perm_of_unique {α : Type} {p : α → Bool} {l l' : List α}
    (hp : l.Perm l')
    (uniq : ∀ a ∈ l, ∀ b ∈ l, p a = true → p b = true → a = b) :
    l.find? p = l'.find? p := by
  cases hf : l.find? p with
  | some a =>
    have ha : p a = true := List.find?_some hf
    have hal : a ∈ l := List.mem_of_find?_eq_some hf
    have hex : ∃ x, x ∈ l' ∧ p x = true := ⟨a, hp.mem_iff.mp hal, ha⟩
    have hsome : (l'.find? p).isSome := List.find?_isSome.mpr hex
    cases hf' : l'.find? p with
    | none => rw [hf'] at hsome; simp at hsome
    | some b =>
      have hb : p b = true := List.find?_some hf'
      have hbl : b ∈ l := hp.mem_iff.mpr (List.mem_of_find?_eq_some hf')
      exact congrArg some (uniq a hal b hbl ha hb)
  | none =>
    have hnone : ∀ x ∈ l', ¬ p x = true := by
      intro x hx
      exact (List.find?_eq_none.mp hf) x (hp.mem_iff.mpr hx)
    exact (List.find?_eq_none.mpr hnone).symm

/-- The correctness map of `compute_auto_score` is not permutation invariant
when two mcq responses share a question id: with one matching and one
non-matching response for the same question, the order decides the entry. -/
theorem auto_score_detail_order_counterexample :
    ([(⟨"mcq", "q1", "a"⟩ : Resp), ⟨"mcq", "q1", "b"⟩]).Perm
      [⟨"mcq", "q1", "b"⟩, ⟨"mcq", "q1", "a"⟩]
    ∧ (compute_auto_score
        [⟨"q1", "mcq", Cell.missing, Cell.missing, Cell.missing, Cell.missing,
          [some "x", some "y"], "a"⟩]
        [⟨"mcq", "q1", "a"⟩, ⟨"mcq", "q1", "b"⟩]).2 "q1"
      ≠ (compute_auto_score
        [⟨"q1", "mcq", Cell.missing, Cell.missing, Cell.missing, Cell.missing,
          [some "x", some "y"], "a"⟩]
        [⟨"mcq", "q1", "b"⟩, ⟨"mcq", "q1", "a"⟩]).2 "q1" := by
  constructor
  · decide
  · decide

/-- C8 (amended): the automatic score and the correctness map are unchanged
under any permutation of the response list provided no two contributing mcq
responses share a question identifier, and inserting or removing a response
whose type is not mcq changes neither score nor map. -/
theorem compute_auto_score_invariances (rows : List Row) (resps resps' : List Resp) (r : Resp)
    (hperm : resps.Perm resps')
    (hnodup : (contribQids (df_mcq_index rows) resps).Nodup)
    (hr : pyLower r.rtype ≠ "mcq") :
    (compute_auto_score rows resps).1 = (compute_auto_score rows resps').1
    ∧ (compute_auto_score rows resps).2 = (compute_auto_score rows resps').2
    ∧ compute_auto_score rows (r :: resps) = compute_auto_score rows resps := by
  refine ⟨?_, ?_, ?_⟩
  · unfold compute_auto_score
    rw [auto_foldl_fst, auto_foldl_fst]
    rw [(hperm.map (contribScore (df_mcq_index rows))).sum_eq]
  · funext q
    unfold compute_auto_score
    rw [auto_foldl_snd, auto_foldl_snd]
    have hpr : resps.reverse.Perm resps'.reverse :=
      ((List.reverse_perm resps).trans hperm).trans (List.reverse_perm resps').symm
    unfold contribQids at hnodup
    have huniq : ∀ a ∈ resps.reverse, ∀ b ∈ resps.reverse,
        (respContributes (df_mcq_index rows) a && (pyStrip a.questionID == q)) = true →
        (respContributes (df_mcq_index rows) b && (pyStrip b.questionID == q)) = true →
        a = b := by
      intro a ha b hb hpa hpb
      rw [Bool.and_eq_true] at hpa hpb
      have ha' : a ∈ resps.filter (respContributes (df_mcq_index rows)) :=
        List.mem_filter.mpr ⟨List.mem_reverse.mp ha, hpa.1⟩
      have hb' : b ∈ resps.filter (respContributes (df_mcq_index rows)) :=
        List.mem_filter.mpr ⟨List.mem_reverse.mp hb, hpb.1⟩
      have hfa : pyStrip a.questionID = q := by simpa using hpa.2
      have hfb : pyStrip b.questionID = q := by simpa using hpb.2
      exact List.inj_on_of_nodup_map hnodup ha' hb' (hfa.trans hfb.symm)
    rw [find?_eq_of_perm_of_unique hpr huniq]
  · unfold compute_auto_score
    rw [List.foldl_cons]
    have h0 : autoStep (df_mcq_index rows) (0, fun _ => none) r = (0, fun _ => none) := by
      simp only [autoStep, if_pos hr]
    rw [h0]

/-- Witness instantiating the amended permutation/insertion invariances of
`compute_auto_score` at a concrete bank and response lists. -/
theorem compute_auto_score_invariances_witness :
    (([(⟨"mcq", "q1", "a"⟩ : Resp), ⟨"short", "q2", "zz"⟩]).Perm
        [⟨"short", "q2", "zz"⟩, ⟨"mcq", "q1", "a"⟩]
      ∧ (contribQids
          (df_mcq_index
            [⟨"q1", "mcq", Cell.missing, Cell.missing, Cell.missing, Cell.missing,
              [some "x", some "y"], "a"⟩])
          [⟨"mcq", "q1", "a"⟩, ⟨"short", "q2", "zz"⟩]).Nodup
      ∧ pyLower "Short" ≠ "mcq")
    ∧ ((compute_auto_score
          [⟨"q1", "mcq", Cell.missing, Cell.missing, Cell.missing, Cell.missing,
            [some "x", some "y"], "a"⟩]
          [⟨"mcq", "q1", "a"⟩, ⟨"short", "q2", "zz"⟩]).1
        = (compute_auto_score
          [⟨"q1", "mcq", Cell.missing, Cell.missing, Cell.missing, Cell.missing,
            [some "x", some "y"], "a"⟩]
          [⟨"short", "q2", "zz"⟩, ⟨"mcq", "q1", "a"⟩]).1
      ∧ (compute_auto_score
          [⟨"q1", "mcq", Cell.missing, Cell.missing, Cell.missing, Cell.missing,
            [some "x", some "y"], "a"⟩]
          [⟨"mcq", "q1", "a"⟩, ⟨"short", "q2", "zz"⟩]).2
        = (compute_auto_score
          [⟨"q1", "mcq", Cell.missing, Cell.missing, Cell.missing, Cell.missing,
            [some "x", some "y"], "a"⟩]
          [⟨"short", "q2", "zz"⟩, ⟨"mcq", "q1", "a"⟩]).2
      ∧ compute_auto_score
          [⟨"q1", "mcq", Cell.missing, Cell.missing, Cell.missing, Cell.missing,
            [some "x", some "y"], "a"⟩]
          ((⟨"Short", "q9", "w"⟩ : Resp)
            :: [⟨"mcq", "q1", "a"⟩, ⟨"short", "q2", "zz"⟩])
        = compute_auto_score
          [⟨"q1", "mcq", Cell.missing, Cell.missing, Cell.missing, Cell.missing,
            [some "x", some "y"], "a"⟩]
          [⟨"mcq", "q1", "a"⟩, ⟨"short", "q2", "zz"⟩]) :=
  ⟨⟨by decide, by decide, by decide⟩,
   compute_auto_score_invariances _ _ _ _ (by decide) (by decide) (by decide)⟩

/-- When the first present (not-NaN) alias cell is non-numeric, the alias scan
yields nothing: the `break` fires before any later alias is consulted. -/
theorem resolve_none_of_first_present_nonNumeric :
    ∀ cells : List Cell,
      cells.find? (fun c => !(c == Cell.missing)) = some Cell.nonNumeric →
      resolve_weight_cells cells = none := by
  intro cells
  induction cells with
  | nil => intro h; simp at h
  | cons c rest ih =>
    intro h
    cases c with
    | missing =>
      rw [List.find?_cons_of_neg _ (by decide)] at h
      simp only [resolve_weight_cells]
      exact ih h
    | num q =>
      rw [List.find?_cons_of_pos _ (by rfl)] at h
      simp at h
    | nonNumeric => simp only [resolve_weight_cells]

/-- The claim that a malformed highest-priority alias value falls through to
the next alias is wrong: with `Marks` non-numeric and `Max = 7`, the resolved
weight is the default 1.0, not 7. -/
theorem malformed_weight_fallthrough_counterexample :
    (df_mcq_index
        [⟨"q1", "mcq", Cell.nonNumeric, Cell.num 7, Cell.missing, Cell.missing, [], "a"⟩]
        "q1").map QMeta.marks = some 1
    ∧ (df_mcq_index
        [⟨"q1", "mcq", Cell.nonNumeric, Cell.num 7, Cell.missing, Cell.missing, [], "a"⟩]
        "q1").map QMeta.marks ≠ some 7 := by
  have h : (df_mcq_index
      [⟨"q1", "mcq", Cell.nonNumeric, Cell.num 7, Cell.missing, Cell.missing, [], "a"⟩]
      "q1").map QMeta.marks = some 1 := by
    simp +decide [df_mcq_index, rowQMeta, df_weight_cells, resolve_weight_cells]
  refine ⟨h, ?_⟩
  rw [h]
  norm_num

/-- C6 (amended): a malformed (non-numeric) value in the first present weight
alias is silently ignored and resolution falls through directly to the default
weight 1.0 — the remaining aliases are not consulted. -/
theorem malformed_weight_defaults (r : Row)
    (hqid : pyStrip r.questionID ≠ "")
    (hjunk : (df_weight_cells r).find? (fun c => !(c == Cell.missing)) = some Cell.nonNumeric) :
    (df_mcq_index [r] (pyStrip r.questionID)).map QMeta.marks = some 1 := by
  have hres : resolve_weight_cells (df_weight_cells r) = none :=
    resolve_none_of_first_present_nonNumeric _ hjunk
  simp [df_mcq_index, hqid, rowQMeta, hres]

/-- Witness instantiating the malformed-weight default at a concrete row. -/
theorem malformed_weight_defaults_witness :
    (pyStrip " q7 " ≠ ""
      ∧ (df_weight_cells
          ⟨" q7 ", "mcq", Cell.nonNumeric, Cell.num 7, Cell.missing, Cell.missing, [], "a"⟩).find?
            (fun c => !(c == Cell.missing)) = some Cell.nonNumeric)
    ∧ (df_mcq_index
        [⟨" q7 ", "mcq", Cell.nonNumeric, Cell.num 7, Cell.missing, Cell.missing, [], "a"⟩]
        (pyStrip " q7 ")).map QMeta.marks = some 1 :=
  ⟨⟨by decide, by decide⟩, malformed_weight_defaults _ (by decide) (by decide)⟩

/-- C7: a row whose only alias cell is `Max = 3` (type mcq, no Marks/Weight)
resolves to weight 3.0, and a row with no alias values at all resolves to the
default weight 1.0 regardless of its question type. -/
theorem weight_resolution_priority_and_default (qid qtype corr : String)
    (opts : List (Option String)) (hqid : pyStrip qid ≠ "") :
    (df_mcq_index
        [⟨qid, "mcq", Cell.missing, Cell.num 3, Cell.missing, Cell.missing, opts, corr⟩]
        (pyStrip qid)).map QMeta.marks = some 3
    ∧ (df_mcq_index
        [⟨qid, qtype, Cell.missing, Cell.missing, Cell.missing, Cell.missing, opts, corr⟩]
        (pyStrip qid)).map QMeta.marks = some 1 := by
  constructor
  · simp [df_mcq_index, hqid, rowQMeta, df_weight_cells, resolve_weight_cells]
  · simp [df_mcq_index, hqid, rowQMeta, df_weight_cells, resolve_weight_cells]

/-- Witness instantiating the weight-resolution scenarios at a concrete row. -/
theorem weight_resolution_priority_and_default_witness :
    pyStrip "Q1" ≠ ""
    ∧ ((df_mcq_index
          [⟨"Q1", "mcq", Cell.missing, Cell.num 3, Cell.missing, Cell.missing, [some "o1"], "x"⟩]
          (pyStrip "Q1")).map QMeta.marks = some 3
      ∧ (df_mcq_index
          [⟨"Q1", "likert", Cell.missing, Cell.missing, Cell.missing, Cell.missing,
            [some "o1"], "x"⟩]
          (pyStrip "Q1")).map QMeta.marks = some 1) :=
  ⟨by decide, weight_resolution_priority_and_default "Q1" "likert" "x" [some "o1"] (by decide)⟩

/-- The short-answer cap is not resolved by the same prioritized alias list as
the mcq weight: with `Marks = 2` and `Max = 5` on a short row, the cap is 5
(Max first) while the weight-style scan would give 2 (Marks first). -/
theorem short_cap_alias_order_counterexample :
    per_question_max_for_short
        [⟨"q1", "short", Cell.num 2, Cell.num 5, Cell.missing, Cell.missing, [], ""⟩] "q1"
      ≠ capClaimed
        [⟨"q1", "short", Cell.num 2, Cell.num 5, Cell.missing, Cell.missing, [], ""⟩] "q1" := by
  have e5 : truncToInt 5 = 5 := by
    unfold truncToInt
    rw [if_pos (by norm_num : (0:ℚ) ≤ 5)]
    norm_num
  have e2 : truncToInt 2 = 2 := by
    unfold truncToInt
    rw [if_pos (by norm_num : (0:ℚ) ≤ 2)]
    norm_num
  have h1 : per_question_max_for_short
      [⟨"q1", "short", Cell.num 2, Cell.num 5, Cell.missing, Cell.missing, [], ""⟩] "q1"
      = some 5 := by
    simp +decide [per_question_max_for_short, shortCapStep, short_cap_cells,
      resolve_weight_cells, e5]
  have h2 : capClaimed
      [⟨"q1", "short", Cell.num 2, Cell.num 5, Cell.missing, Cell.missing, [], ""⟩] "q1"
      = some 2 := by
    simp +decide [capClaimed, df_weight_cells, resolve_weight_cells, e2]
  rw [h1, h2]
  decide

/-- Every accumulator entry of the short-cap fold stays at least 1. -/
theorem shortCapStep_ge_one (out : String → Option ℤ) (r : Row)
    (h : ∀ q, 1 ≤ ((out q).getD 1)) : ∀ q, 1 ≤ (((shortCapStep out r) q).getD 1) := by
  intro q
  simp only [shortCapStep]
  by_cases h1 : pyLower (pyStrip r.qtype) ≠ "short"
  · simp only [if_pos h1]
    exact h q
  · simp only [if_neg h1]
    by_cases h2 : pyStrip r.questionID = ""
    · simp only [if_pos h2]
      exact h q
    · simp only [if_neg h2]
      by_cases h3 : q = pyStrip r.questionID
      · simp only [if_pos h3, Option.getD_some]
        exact le_max_left 1 _
      · simp only [if_neg h3]
        exact h q

/-- Folding the short-cap step preserves the at-least-1 invariant. -/
theorem cap_foldl_ge_one :
    ∀ (rows : List Row) (acc : String → Option ℤ), (∀ q, 1 ≤ ((acc q).getD 1)) →
      ∀ q, 1 ≤ (((rows.foldl shortCapStep acc) q).getD 1) := by
  intro rows
  induction rows with
  | nil => intro acc h q; exact h q
  | cons r rest ih =>
    intro acc h q
    rw [List.foldl_cons]
    exact ih (shortCapStep acc r) (shortCapStep_ge_one acc r h) q

/-- C5 (amended): for every short-type question the cap is resolved by the
prioritized alias list Max, Marks, MaxMarks, Weight (Max first, unlike the
Marks-first order used for mcq weights), truncated to an integer, defaulting
to 1 when no alias value is present, and every resolved cap is at least 1
even when the configured value is zero, negative, or smaller than 1. -/
theorem per_question_max_characterization (rows : List Row) (q : String) :
    per_question_max_for_short rows q = capAmended rows q
    ∧ 1 ≤ ((per_question_max_for_short rows q).getD 1) := by
  constructor
  · rfl
  · exact cap_foldl_ge_one rows (fun _ => none) (fun _ => by simp) q

/-- Python `int(v or 0)` on a present integer is the integer itself. -/
theorem pyIntOr0_some (v : Int) : pyIntOr0 (some v) = v := by
  simp only [pyIntOr0]
  by_cases hv : v = 0
  · simp [hv]
  · simp [hv]

/-- Python `int(v or 0)` is exactly `getD 0`. -/
theorem pyIntOr0_eq_getD (o : Option Int) : pyIntOr0 o = o.getD 0 := by
  cases o with
  | none => rfl
  | some v => rw [pyIntOr0_some]; rfl

/-- On an all-present marks map, the `int(v or 0)` sum is the sum of the values. -/
theorem sum_pyIntOr0_map (m : List (String × Int)) :
    ((m.map (fun p => (p.1, some p.2))).map (fun p => pyIntOr0 p.2)).sum
      = (m.map Prod.snd).sum := by
  induction m with
  | nil => rfl
  | cons p t ih =>
    simp only [List.map_cons, List.sum_cons, pyIntOr0_some]
    rw [ih]

/-- C3: `save_marks` computes the short total as the sum of the manual score
values, the total as the automatic score plus the short total, merge-writes
the six fields {ShortMarks, ShortMarksTotal, AutoScore, TotalScore,
Evaluated=true, EvaluatedAt=now}, and returns the pair (shortTotal, total). -/
theorem save_marks_computes_totals_and_writes_fields
    (now : String) (doc : Doc) (m : List (String × Int)) (a : ℚ) :
    (save_marks now doc (m.map (fun p => (p.1, some p.2))) a).2.1 = (m.map Prod.snd).sum
    ∧ (save_marks now doc (m.map (fun p => (p.1, some p.2))) a).2.2
        = a + (((m.map Prod.snd).sum : ℤ) : ℚ)
    ∧ (save_marks now doc (m.map (fun p => (p.1, some p.2))) a).1 "ShortMarks"
        = some (Value.marksMap (m.map (fun p => (p.1, some p.2))))
    ∧ (save_marks now doc (m.map (fun p => (p.1, some p.2))) a).1 "ShortMarksTotal"
        = some (Value.num
            (((save_marks now doc (m.map (fun p => (p.1, some p.2))) a).2.1 : ℚ)))
    ∧ (save_marks now doc (m.map (fun p => (p.1, some p.2))) a).1 "AutoScore"
        = some (Value.num a)
    ∧ (save_marks now doc (m.map (fun p => (p.1, some p.2))) a).1 "TotalScore"
        = some (Value.num ((save_marks now doc (m.map (fun p => (p.1, some p.2))) a).2.2))
    ∧ (save_marks now doc (m.map (fun p => (p.1, some p.2))) a).1 "Evaluated"
        = some (Value.boolV true)
    ∧ (save_marks now doc (m.map (fun p => (p.1, some p.2))) a).1 "EvaluatedAt"
        = some (Value.str now) := by
  refine ⟨?_, ?_, rfl, rfl, rfl, rfl, rfl, rfl⟩
  · show ((m.map (fun p => (p.1, some p.2))).map (fun p => pyIntOr0 p.2)).sum = _
    exact sum_pyIntOr0_map m
  · show a + ((((m.map (fun p => (p.1, some p.2))).map (fun p => pyIntOr0 p.2)).sum : ℤ) : ℚ)
        = _
    rw [sum_pyIntOr0_map]

/-- C4: the totals persisted by `save_marks` depend only on the manual scores
and the automatic score, so a second call with identical inputs — on the
already-written record or on any record — returns the same pair, and the
merge-write leaves every field other than the six written ones unchanged. -/
theorem save_marks_idempotent_and_frame
    (now now2 : String) (doc doc2 : Doc) (sm : List (String × Option Int)) (a : ℚ) (k : String)
    (h1 : k ≠ "ShortMarks") (h2 : k ≠ "ShortMarksTotal") (h3 : k ≠ "AutoScore")
    (h4 : k ≠ "TotalScore") (h5 : k ≠ "Evaluated") (h6 : k ≠ "EvaluatedAt") :
    (save_marks now2 (save_marks now doc sm a).1 sm a).2 = (save_marks now doc sm a).2
    ∧ (save_marks now doc sm a).2 = (save_marks now2 doc2 sm a).2
    ∧ (save_marks now doc sm a).1 k = doc k := by
  refine ⟨rfl, rfl, ?_⟩
  have e1 : (k == "ShortMarks") = false := beq_eq_false_iff_ne.mpr h1
  have e2 : (k == "ShortMarksTotal") = false := beq_eq_false_iff_ne.mpr h2
  have e3 : (k == "AutoScore") = false := beq_eq_false_iff_ne.mpr h3
  have e4 : (k == "TotalScore") = false := beq_eq_false_iff_ne.mpr h4
  have e5 : (k == "Evaluated") = false := beq_eq_false_iff_ne.mpr h5
  have e6 : (k == "EvaluatedAt") = false := beq_eq_false_iff_ne.mpr h6
  simp [save_marks, mergeWrite, List.lookup, e1, e2, e3, e4, e5, e6]

/-- Witness instantiating the `save_marks` idempotence and frame properties at
a concrete record holding an unrelated `Name` field. -/
theorem save_marks_idempotent_and_frame_witness :
    (("Name" : String) ≠ "ShortMarks" ∧ ("Name" : String) ≠ "ShortMarksTotal"
      ∧ ("Name" : String) ≠ "AutoScore" ∧ ("Name" : String) ≠ "TotalScore"
      ∧ ("Name" : String) ≠ "Evaluated" ∧ ("Name" : String) ≠ "EvaluatedAt")
    ∧ ((save_marks "t2"
          (save_marks "t1"
            (fun f => if f = "Name" then some (Value.str "alice") else none)
            [("q1", some 2)] 3).1
          [("q1", some 2)] 3).2
        = (save_marks "t1"
            (fun f => if f = "Name" then some (Value.str "alice") else none)
            [("q1", some 2)] 3).2
      ∧ (save_marks "t1"
            (fun f => if f = "Name" then some (Value.str "alice") else none)
            [("q1", some 2)] 3).2
        = (save_marks "t2" (fun _ => none) [("q1", some 2)] 3).2
      ∧ (save_marks "t1"
            (fun f => if f = "Name" then some (Value.str "alice") else none)
            [("q1", some 2)] 3).1 "Name"
        = (fun f => if f = "Name" then some (Value.str "alice") else none) "Name") :=
  ⟨⟨by decide, by decide, by decide, by decide, by decide, by decide⟩,
   save_marks_idempotent_and_frame "t1" "t2"
     (fun f => if f = "Name" then some (Value.str "alice") else none)
     (fun _ => none) [("q1", some 2)] 3 "Name"
     (by decide) (by decide) (by decide) (by decide) (by decide) (by decide)⟩

/-- C9 (code bug): on a record with no persisted `ShortMarksTotal` the
recompute-only handler writes `TotalScore = NaN`, not the intended automatic
score plus 0 — the pandas row holds NaN for the missing field, NaN is truthy,
so `row.get("ShortMarksTotal") or 0` is NaN and the sum is NaN — while
`AutoScore` is written correctly, a present numeric total is added correctly,
and the untouched fields (here `Evaluated`) keep their values. -/
theorem recalc_auto_only_nan_on_missing_short_total :
    recalculate_auto_score_only
        (fun f => if f = "Evaluated" then some (Value.boolV false) else none) 2 "TotalScore"
      = some Value.nanNum
    ∧ recalculate_auto_score_only
        (fun f => if f = "Evaluated" then some (Value.boolV false) else none) 2 "TotalScore"
      ≠ some (Value.num (2 + 0))
    ∧ recalculate_auto_score_only
        (fun f => if f = "ShortMarksTotal" then some (Value.num 4) else none) 3 "TotalScore"
      = some (Value.num (3 + 4))
    ∧ recalculate_auto_score_only
        (fun f => if f = "Evaluated" then some (Value.boolV false) else none) 2 "AutoScore"
      = some (Value.num 2)
    ∧ recalculate_auto_score_only
        (fun f => if f = "Evaluated" then some (Value.boolV false) else none) 2 "Evaluated"
      = some (Value.boolV false) := by
  have h0 : recalculate_auto_score_only
      (fun f => if f = "Evaluated" then some (Value.boolV false) else none) 2 "TotalScore"
      = some Value.nanNum := rfl
  refine ⟨h0, ?_, rfl, rfl, rfl⟩
  rw [h0]
  simp

/-- C10: `save_marks` enforces no per-question cap: a `None` or 0 manual value
counts as 0 and every other integer value — negative or above any resolved cap
— is summed unchanged into the short total and hence into the persisted
total. -/
theorem save_marks_no_cap_enforcement (now : String) (doc : Doc)
    (sm : List (String × Option Int)) (a : ℚ) :
    (save_marks now doc sm a).2.1 = (sm.map (fun p => p.2.getD 0)).sum
    ∧ (save_marks now doc sm a).1 "TotalScore"
        = some (Value.num (a + (((sm.map (fun p => p.2.getD 0)).sum : ℤ) : ℚ))) := by
  have hs : (sm.map (fun p => pyIntOr0 p.2)).sum = (sm.map (fun p => p.2.getD 0)).sum := by
    simp only [pyIntOr0_eq_getD]
  constructor
  · show (sm.map (fun p => pyIntOr0 p.2)).sum = _
    exact hs
  · show some (Value.num (a + (((sm.map (fun p => pyIntOr0 p.2)).sum : ℤ) : ℚ))) = _
    rw [hs]
